import Mathlib

/-!
Verification development for the nonlinear conjugate gradient (NLCG) solver of
`src/argmin/src/solver/conjugategradient/nonlinear_cg.rs`.

Modelling conventions:

* Scalars are generic over a carrier `F` together with a record `FOps F` of the
  arithmetic operations the solver uses.  The main instance `qOps` is exact
  rational arithmetic (the usual exact model of the floating point code); a
  second instance `fvOps` models IEEE-style special values (NaN, plus and minus
  infinity) and is used where finiteness of a value is itself the point.
* The parameter type `P` of the Rust code is modelled as `List F` with the
  componentwise operations of `argmin_math` (`ArgminAdd`, `ArgminMul`,
  `ArgminDot`, `ArgminNorm`).
* Fallible oracle calls return `Except E`; a Rust panic (`unwrap` of `None`,
  integer remainder by zero) is modelled by the outcome `Fail.rustPanic`,
  and `?`-propagated errors by `Fail.er`.
* The `OpWrapper` evaluation counting is modelled by an explicit call log
  (`List (Call F)`) threaded through every oracle call.
* The line search, the beta update rule, and the outer driver loop are external
  collaborators of the solver (their code is not part of this repository's
  sources here); they are modelled from the spec as function parameters, see
  `LineSearchFn`, `BetaRule`, `runNLCG`, `runSD`.
-/

/-- The scalar operations used by the solver, supplied by the `ArgminFloat`
carrier type `F` of the Rust code. `le a b` is the (possibly partial, as for
IEEE NaN) ordering test `a <= b` returning a boolean. -/
structure FOps (F : Type) where
  zero : F
  negOne : F
  nan : F
  neg : F → F
  add : F → F → F
  mul : F → F → F
  div : F → F → F
  abs : F → F
  le : F → F → Bool

variable {F E : Type}

/-- Parameter vectors: the concrete `Vec<F>` instance of the `argmin_math`
capability set. -/
abbrev Vec (F : Type) := List F

/-- `v.mul(&s)`: componentwise multiplication by a scalar. -/
def mulVS (ops : FOps F) (v : Vec F) (s : F) : Vec F :=
  v.map (fun a => ops.mul a s)

/-- `a.add(&b)`: componentwise addition. -/
def addV (ops : FOps F) (v w : Vec F) : Vec F :=
  List.zipWith ops.add v w

/-- Componentwise negation, the mathematical `-v` used to state the spec's
direction invariants. -/
def negV (ops : FOps F) (v : Vec F) : Vec F :=
  v.map ops.neg

/-- `a.dot(&b)`: the Euclidean inner product, summed left to right. -/
def dotV (ops : FOps F) (v w : Vec F) : F :=
  (List.zipWith ops.mul v w).foldl ops.add ops.zero

/-- The quantity `v.norm().powi(2)` of the source.  The source computes the
Euclidean norm `√⟨v,v⟩` and squares it; in exact arithmetic `(√⟨v,v⟩)² = ⟨v,v⟩`
(the inner product of a vector with itself is nonnegative), so the exact model
uses the inner product directly. -/
def normSq (ops : FOps F) (v : Vec F) : F :=
  dotV ops v v

/-- One oracle evaluation performed through the `OpWrapper`: a cost
evaluation (`op.apply`) or a gradient evaluation (`op.gradient`), at a point. -/
inductive Call (F : Type) where
  | cost (x : Vec F)
  | grad (x : Vec F)
deriving DecidableEq

/-- The objective oracle (`ArgminOp`): cost and gradient, both fallible. -/
structure Problem (F E : Type) where
  apply : Vec F → Except E F
  gradient : Vec F → Except E (Vec F)

/-- `op.apply(&x)` through the counting wrapper: the call is logged and the
oracle's result returned. -/
def callCost (prob : Problem F E) (log : List (Call F)) (x : Vec F) :
    List (Call F) × Except E F :=
  (log ++ [Call.cost x], prob.apply x)

/-- `op.gradient(&x)` through the counting wrapper. -/
def callGrad (prob : Problem F E) (log : List (Call F)) (x : Vec F) :
    List (Call F) × Except E (Vec F) :=
  (log ++ [Call.grad x], prob.gradient x)

/-- `state.take_grad().map(Result::Ok).unwrap_or_else(|| op.gradient(&xk))`:
use the gradient cached by the driver if present, otherwise evaluate it. -/
def gradLookup (prob : Problem F E) (log : List (Call F)) (gopt : Option (Vec F))
    (xk : Vec F) : List (Call F) × Except E (Vec F) :=
  match gopt with
  | some g => (log, Except.ok g)
  | none => callGrad prob log xk

/-- How a call into the solver can fail: a Rust panic (`unwrap` on `None`,
remainder by zero), or an error value propagated unchanged by `?`. -/
inductive Fail (E : Type) where
  | rustPanic
  | er (e : E)
deriving DecidableEq

/-- Modelled from the spec: the line-search collaborator (spec section 4.3).
It is configured with a search direction, borrows the oracle (here: the
problem plus the call log, so that the evaluations it performs are merged back,
`op.consume_op(line_op)`), starts from `x` with gradient `g` and cost `f`, and
returns the new iterate together with the updated call log, or fails. -/
abbrev LineSearchFn (F E : Type) :=
  Vec F → Problem F E → List (Call F) → Vec F → Vec F → F →
    Except E (Vec F × List (Call F))

/-- Modelled from the spec: the beta update rule (`ArgminNLCGBetaUpdate`),
a stateless callable `update(gₖ, gₖ₊₁, pₖ) → β`. -/
abbrev BetaRule (F : Type) := Vec F → Vec F → Vec F → F

/-- The solver struct `NonlinearConjugateGradient<P, L, B, F>`. -/
structure NonlinearConjugateGradient (F E : Type) where
  p : Option (Vec F)
  beta : F
  linesearch : LineSearchFn F E
  beta_method : BetaRule F
  restart_iter : Nat
  restart_orthogonality : Option F

/-- `std::u64::MAX`, the default of `restart_iter`. -/
def u64Max : Nat := 2 ^ 64 - 1

/-- The constructor `NonlinearConjugateGradient::new(linesearch, beta_method)`. -/
def NLCGnew (ops : FOps F) (linesearch : LineSearchFn F E) (beta_method : BetaRule F) :
    NonlinearConjugateGradient F E :=
  { p := none
    beta := ops.nan
    linesearch := linesearch
    beta_method := beta_method
    restart_iter := u64Max
    restart_orthogonality := none }

/-- The chainable setter `restart_iters(iters)`; it stores the value with no
validation. -/
def restart_iters (s : NonlinearConjugateGradient F E) (iters : Nat) :
    NonlinearConjugateGradient F E :=
  { s with restart_iter := iters }

/-- The chainable setter `restart_orthogonality(v)`. -/
def restart_orthogonality (s : NonlinearConjugateGradient F E) (v : F) :
    NonlinearConjugateGradient F E :=
  { s with restart_orthogonality := some v }

/-- The slice of the driver's `IterState` that the solver reads: the current
parameter and (optionally cached) gradient, the current cost, and the
iteration counter `state.get_iter()`. -/
structure IterState (F : Type) where
  param : Option (Vec F)
  grad : Option (Vec F)
  cost : F
  iter : Nat

/-- The diagnostic key/value map emitted by `next_iter` (`make_kv!`). -/
structure ArgminKV (F : Type) where
  beta : F
  restart_iter : Bool
  restart_orthogonality : Bool
deriving DecidableEq

/-- The `ArgminIterData` returned by `init`: parameter, cost, gradient. -/
structure InitData (F : Type) where
  param : Vec F
  cost : F
  grad : Vec F
deriving DecidableEq

/-- The `ArgminIterData` returned by `next_iter`: parameter, cost, gradient
and the diagnostic map. -/
structure IterData (F : Type) where
  param : Vec F
  cost : F
  grad : Vec F
  kv : ArgminKV F
deriving DecidableEq

/-- The orthogonality-restart predicate computed by `next_iter`:
`new_grad.dot(&grad).abs() / new_grad.norm().powi(2) >= v` if the threshold is
configured, `false` otherwise. -/
def orthoFlag (ops : FOps F) (s : NonlinearConjugateGradient F E)
    (grad new_grad : Vec F) : Bool :=
  match s.restart_orthogonality with
  | some v => ops.le v (ops.div (ops.abs (dotV ops new_grad grad)) (normSq ops new_grad))
  | none => false

/-- The iteration-restart predicate computed by `next_iter` when
`restart_iter ≠ 0`: `(state.get_iter() % self.restart_iter == 0) &&
state.get_iter() != 0`. -/
def iterFlag (s : NonlinearConjugateGradient F E) (k : Nat) : Bool :=
  (k % s.restart_iter == 0) && (k != 0)

/-- The coefficient stored by `next_iter`: `0` when either restart predicate
fires, the beta rule's output otherwise. -/
def betaSel (ops : FOps F) (s : NonlinearConjugateGradient F E) (k : Nat)
    (grad new_grad p : Vec F) : F :=
  if iterFlag s k || orthoFlag ops s grad new_grad then ops.zero
  else s.beta_method grad new_grad p

/-- `Solver::init`: takes the parameter out of the state (panicking if it is
absent), evaluates cost and gradient once each at it, stores
`p ← grad * (-1)`, and returns the parameter, cost and gradient. -/
def NLCGinit (ops : FOps F) (s : NonlinearConjugateGradient F E)
    (prob : Problem F E) (log : List (Call F)) (st : IterState F) :
    NonlinearConjugateGradient F E × List (Call F) × Except (Fail E) (InitData F) :=
  match st.param with
  | none => (s, log, Except.error Fail.rustPanic)
  | some param =>
    match callCost prob log param with
    | (log1, Except.error e) => (s, log1, Except.error (Fail.er e))
    | (log1, Except.ok cost) =>
      match callGrad prob log1 param with
      | (log2, Except.error e) => (s, log2, Except.error (Fail.er e))
      | (log2, Except.ok grad) =>
        ({ s with p := some (mulVS ops grad ops.negOne) }, log2,
          Except.ok { param := param, cost := cost, grad := grad })

/-- `Solver::next_iter`, one NLCG step, in the source's order of effects:
read `p` (panic if unset), take the parameter (panic if absent), obtain the
gradient (cached or freshly evaluated), run the line search from `xk` along
`p`, evaluate the gradient at the new iterate, compute the two restart
predicates (the remainder by `restart_iter = 0` panics), select `beta`,
update `p`, evaluate the cost at the new iterate, and return the new iterate,
cost, gradient and diagnostics.  The (possibly mutated) solver state is
returned alongside the outcome, mirroring the `&mut self` receiver. -/
def NLCGnext_iter (ops : FOps F) (s : NonlinearConjugateGradient F E)
    (prob : Problem F E) (log : List (Call F)) (st : IterState F) :
    NonlinearConjugateGradient F E × List (Call F) × Except (Fail E) (IterData F) :=
  match s.p with
  | none => (s, log, Except.error Fail.rustPanic)
  | some p =>
    match st.param with
    | none => (s, log, Except.error Fail.rustPanic)
    | some xk =>
      match gradLookup prob log st.grad xk with
      | (log1, Except.error e) => (s, log1, Except.error (Fail.er e))
      | (log1, Except.ok grad) =>
        match s.linesearch p prob log1 xk grad st.cost with
        | Except.error e => (s, log1, Except.error (Fail.er e))
        | Except.ok (xk1, log2) =>
          match callGrad prob log2 xk1 with
          | (log3, Except.error e) => (s, log3, Except.error (Fail.er e))
          | (log3, Except.ok new_grad) =>
            if s.restart_iter = 0 then
              (s, log3, Except.error Fail.rustPanic)
            else
              let beta := betaSel ops s st.iter grad new_grad p
              let s1 := { s with
                beta := beta
                p := some (addV ops (mulVS ops new_grad ops.negOne) (mulVS ops p beta)) }
              match callCost prob log3 xk1 with
              | (log4, Except.error e) => (s1, log4, Except.error (Fail.er e))
              | (log4, Except.ok cost) =>
                (s1, log4, Except.ok
                  { param := xk1, cost := cost, grad := new_grad
                    kv := { beta := beta
                            restart_iter := iterFlag s st.iter
                            restart_orthogonality := orthoFlag ops s grad new_grad } })

/-- Exact rational arithmetic, the standard exact model of the `f64`
instantiation.  `nan` is the "never yet computed" sentinel for `beta`; the
spec allows any sentinel here ("tests must not rely on the sentinel being NaN
specifically"), and the algorithm never reads it before overwriting it. -/
def qOps : FOps ℚ :=
  { zero := 0
    negOne := -1
    nan := 0
    neg := fun a => -a
    add := fun a b => a + b
    mul := fun a b => a * b
    div := fun a b => a / b
    abs := fun a => |a|
    le := fun a b => decide (a ≤ b) }

/-- Modelled from the spec: an `ArgminFloat` carrier with the IEEE special
values NaN and plus/minus infinity alongside exact finite values, used for the
claims in which finiteness of a scalar is itself at stake (the spec's NaN
sentinel discussion and the unconstrained beta rule output). -/
inductive FV where
  | fin (q : ℚ)
  | pinf
  | ninf
  | nan
deriving DecidableEq

/-- A value is finite when it is neither NaN nor an infinity. -/
def FV.isFinite : FV → Bool
  | FV.fin _ => true
  | _ => false

/-- Negation on IEEE-style values. -/
def fvNeg : FV → FV
  | FV.fin q => FV.fin (-q)
  | FV.pinf => FV.ninf
  | FV.ninf => FV.pinf
  | FV.nan => FV.nan

/-- Addition on IEEE-style values: NaN propagates, opposite infinities give
NaN, an infinity absorbs finite values. -/
def fvAdd : FV → FV → FV
  | FV.nan, _ => FV.nan
  | _, FV.nan => FV.nan
  | FV.pinf, FV.ninf => FV.nan
  | FV.ninf, FV.pinf => FV.nan
  | FV.pinf, _ => FV.pinf
  | _, FV.pinf => FV.pinf
  | FV.ninf, _ => FV.ninf
  | _, FV.ninf => FV.ninf
  | FV.fin a, FV.fin b => FV.fin (a + b)

/-- Multiplication on IEEE-style values: NaN propagates, infinity times zero
is NaN, otherwise signs combine. -/
def fvMul : FV → FV → FV
  | FV.nan, _ => FV.nan
  | _, FV.nan => FV.nan
  | FV.pinf, FV.pinf => FV.pinf
  | FV.pinf, FV.ninf => FV.ninf
  | FV.ninf, FV.pinf => FV.ninf
  | FV.ninf, FV.ninf => FV.pinf
  | FV.pinf, FV.fin b => if b = 0 then FV.nan else if 0 < b then FV.pinf else FV.ninf
  | FV.fin a, FV.pinf => if a = 0 then FV.nan else if 0 < a then FV.pinf else FV.ninf
  | FV.ninf, FV.fin b => if b = 0 then FV.nan else if 0 < b then FV.ninf else FV.pinf
  | FV.fin a, FV.ninf => if a = 0 then FV.nan else if 0 < a then FV.ninf else FV.pinf
  | FV.fin a, FV.fin b => FV.fin (a * b)

/-- Division on IEEE-style values: NaN propagates, infinity over infinity is
NaN, a nonzero finite value over zero is a signed infinity, zero over zero is
NaN, a finite value over an infinity is zero (signed zeros are identified). -/
def fvDiv : FV → FV → FV
  | FV.nan, _ => FV.nan
  | _, FV.nan => FV.nan
  | FV.pinf, FV.pinf => FV.nan
  | FV.pinf, FV.ninf => FV.nan
  | FV.ninf, FV.pinf => FV.nan
  | FV.ninf, FV.ninf => FV.nan
  | FV.pinf, FV.fin b => if 0 ≤ b then FV.pinf else FV.ninf
  | FV.ninf, FV.fin b => if 0 ≤ b then FV.ninf else FV.pinf
  | FV.fin _, FV.pinf => FV.fin 0
  | FV.fin _, FV.ninf => FV.fin 0
  | FV.fin a, FV.fin b =>
    if b = 0 then
      if a = 0 then FV.nan else if 0 < a then FV.pinf else FV.ninf
    else FV.fin (a / b)

/-- Absolute value on IEEE-style values. -/
def fvAbs : FV → FV
  | FV.fin q => FV.fin |q|
  | FV.nan => FV.nan
  | _ => FV.pinf

/-- The ordering test on IEEE-style values: comparisons with NaN are false. -/
def fvLe : FV → FV → Bool
  | FV.nan, _ => false
  | _, FV.nan => false
  | FV.ninf, _ => true
  | _, FV.pinf => true
  | FV.pinf, _ => false
  | _, FV.ninf => false
  | FV.fin a, FV.fin b => decide (a ≤ b)

/-- The IEEE-style scalar operations. -/
def fvOps : FOps FV :=
  { zero := FV.fin 0
    negOne := FV.fin (-1)
    nan := FV.nan
    neg := fvNeg
    add := fvAdd
    mul := fvMul
    div := fvDiv
    abs := fvAbs
    le := fvLe }

/-- Modelled from the spec: the outer driver loop (spec sections 4.4 and 4.6).
Starting from an iterate with its cached gradient and cost and the iteration
index `k`, it calls `next_iter` up to `fuel` more times, feeding each step's
returned parameter, gradient (cached forward) and cost into the next step and
incrementing the index, and collects the produced iterates. -/
def nlcgLoop (ops : FOps F) (s : NonlinearConjugateGradient F E)
    (prob : Problem F E) (log : List (Call F)) (x g : Vec F) (f : F)
    (k fuel : Nat) : Except (Fail E) (List (Vec F)) :=
  match fuel with
  | 0 => Except.ok []
  | fuel' + 1 =>
    match NLCGnext_iter ops s prob log
        { param := some x, grad := some g, cost := f, iter := k } with
    | (s1, log1, Except.ok d) =>
      match nlcgLoop ops s1 prob log1 d.param d.grad d.cost (k + 1) fuel' with
      | Except.ok xs => Except.ok (d.param :: xs)
      | Except.error e => Except.error e
    | (_, _, Except.error e) => Except.error e

/-- Modelled from the spec: a full run of the driver with the NLCG solver:
`init` at `x₀` (iteration counter starting at 0), then `fuel` steps, returning
the iterate sequence `x₀, x₁, …`. -/
def runNLCG (ops : FOps F) (s : NonlinearConjugateGradient F E)
    (prob : Problem F E) (x0 : Vec F) (fuel : Nat) :
    Except (Fail E) (List (Vec F)) :=
  match NLCGinit ops s prob []
      { param := some x0, grad := none, cost := ops.zero, iter := 0 } with
  | (s1, log1, Except.ok d) =>
    match nlcgLoop ops s1 prob log1 d.param d.grad d.cost 0 fuel with
    | Except.ok xs => Except.ok (d.param :: xs)
    | Except.error e => Except.error e
  | (_, _, Except.error e) => Except.error e

/-- Modelled from the spec: one step of pure steepest descent with the same
line search: the search direction is always `−gₖ`, then the gradient and the
cost are evaluated at the new iterate, in the same oracle order as the NLCG
step. -/
def sdStep (ops : FOps F) (ls : LineSearchFn F E) (prob : Problem F E)
    (log : List (Call F)) (x g : Vec F) (f : F) :
    Except (Fail E) (Vec F × F × Vec F × List (Call F)) :=
  match ls (negV ops g) prob log x g f with
  | Except.error e => Except.error (Fail.er e)
  | Except.ok (x1, log1) =>
    match callGrad prob log1 x1 with
    | (_, Except.error e) => Except.error (Fail.er e)
    | (log2, Except.ok g1) =>
      match callCost prob log2 x1 with
      | (_, Except.error e) => Except.error (Fail.er e)
      | (log3, Except.ok f1) => Except.ok (x1, f1, g1, log3)

/-- Modelled from the spec: the steepest-descent driver loop, mirroring
`nlcgLoop`. -/
def sdLoop (ops : FOps F) (ls : LineSearchFn F E) (prob : Problem F E)
    (log : List (Call F)) (x g : Vec F) (f : F) (fuel : Nat) :
    Except (Fail E) (List (Vec F)) :=
  match fuel with
  | 0 => Except.ok []
  | fuel' + 1 =>
    match sdStep ops ls prob log x g f with
    | Except.ok (x1, f1, g1, log1) =>
      match sdLoop ops ls prob log1 x1 g1 f1 fuel' with
      | Except.ok xs => Except.ok (x1 :: xs)
      | Except.error e => Except.error e
    | Except.error e => Except.error e

/-- Modelled from the spec: a full run of pure steepest descent with the same
line search, with the same initialization protocol (one cost and one gradient
evaluation at `x₀`), returning the iterate sequence. -/
def runSD (ops : FOps F) (ls : LineSearchFn F E) (prob : Problem F E)
    (x0 : Vec F) (fuel : Nat) : Except (Fail E) (List (Vec F)) :=
  match callCost prob [] x0 with
  | (_, Except.error e) => Except.error (Fail.er e)
  | (log1, Except.ok f0) =>
    match callGrad prob log1 x0 with
    | (_, Except.error e) => Except.error (Fail.er e)
    | (log2, Except.ok g0) =>
      match sdLoop ops ls prob log2 x0 g0 f0 fuel with
      | Except.ok xs => Except.ok (x0 :: xs)
      | Except.error e => Except.error e

deriving instance DecidableEq for Except

/-! Concrete fixtures used to instantiate the theorems: a unit-step line
search, simple constant beta rules, and one-dimensional model problems. -/

/-- A concrete line search taking one unit step along the search direction and
performing no oracle evaluation (its own termination criterion is trivial). -/
def lsUnit : LineSearchFn ℚ Unit :=
  fun dir _ log x _ _ => Except.ok (addV qOps x dir, log)

/-- A line search that always fails. -/
def lsFail : LineSearchFn ℚ Unit :=
  fun _ _ _ _ _ _ => Except.error ()

/-- The constant beta rule returning 1. -/
def rule1 : BetaRule ℚ := fun _ _ _ => 1

/-- The constant beta rule returning 1/2. -/
def ruleHalf : BetaRule ℚ := fun _ _ _ => 1 / 2

/-- The one-dimensional model objective f(x) = x²/2 with gradient x: the
oracle always succeeds and always returns one-dimensional vectors. -/
def probQ : Problem ℚ Unit :=
  { apply := fun v => Except.ok (v.headD 0 * v.headD 0 / 2)
    gradient := fun v => Except.ok [v.headD 0] }

/-- The same objective with a cost oracle that fails at the origin, and
nowhere else. -/
def prob7 : Problem ℚ Unit :=
  { apply := fun v =>
      if v = [(0 : ℚ)] then Except.error ()
      else Except.ok (v.headD 0 * v.headD 0 / 2)
    gradient := fun v => Except.ok [v.headD 0] }

/-- A unit-step line search over the IEEE-style scalars. -/
def lsFVunit : LineSearchFn FV Unit :=
  fun dir _ log x _ _ => Except.ok (addV fvOps x dir, log)

/-- A beta rule over the IEEE-style scalars that always returns NaN; the
solver imposes no constraint excluding it. -/
def ruleNaN : BetaRule FV := fun _ _ _ => FV.nan

/-- A model problem over the IEEE-style scalars: zero cost, identity
gradient. -/
def probFV : Problem FV Unit :=
  { apply := fun _ => Except.ok (FV.fin 0)
    gradient := fun v => Except.ok v }

/-! Helper lemmas about the exact vector arithmetic. -/

/-- Multiplying a vector by the scalar −1 is componentwise negation. -/
theorem mulVS_negOne (v : Vec ℚ) : mulVS qOps v qOps.negOne = negV qOps v := by
  simp [mulVS, negV, qOps]

/-- Adding `0 · w` to `u` leaves `u` unchanged when `w` is at least as long
as `u`. -/
theorem addV_mulVS_zero (u w : Vec ℚ) (h : u.length ≤ w.length) :
    addV qOps u (mulVS qOps w (0 : ℚ)) = u := by
  induction u generalizing w with
  | nil => simp [addV]
  | cons a u ih =>
    cases w with
    | nil => simp at h
    | cons b w =>
      simp only [List.length_cons, Nat.succ_le_succ_iff] at h
      simp [addV, mulVS, qOps, List.zipWith] at ih ⊢
      exact ih w h

/-- Inversion of a successful `next_iter`: a step that returns `Except.ok`
factors into a present direction, a present parameter, a successful gradient
lookup, line search, new-gradient evaluation and cost evaluation, a nonzero
`restart_iter` configuration, and the resulting solver state and output are
exactly the ones computed by the source. -/
theorem next_iter_ok_inv (ops : FOps F) (s : NonlinearConjugateGradient F E)
    (prob : Problem F E) (log : List (Call F)) (st : IterState F)
    (s' : NonlinearConjugateGradient F E) (log' : List (Call F)) (out : IterData F)
    (h : NLCGnext_iter ops s prob log st = (s', log', Except.ok out)) :
    ∃ p xk log1 g x1 log2,
      s.p = some p ∧
      st.param = some xk ∧
      gradLookup prob log st.grad xk = (log1, Except.ok g) ∧
      s.linesearch p prob log1 xk g st.cost = Except.ok (x1, log2) ∧
      prob.gradient x1 = Except.ok out.grad ∧
      s.restart_iter ≠ 0 ∧
      prob.apply x1 = Except.ok out.cost ∧
      out.param = x1 ∧
      out.kv = { beta := betaSel ops s st.iter g out.grad p
                 restart_iter := iterFlag s st.iter
                 restart_orthogonality := orthoFlag ops s g out.grad } ∧
      s' = { s with
        beta := betaSel ops s st.iter g out.grad p
        p := some (addV ops (mulVS ops out.grad ops.negOne)
          (mulVS ops p (betaSel ops s st.iter g out.grad p))) } ∧
      log' = log2 ++ [Call.grad x1] ++ [Call.cost x1] := by
  unfold NLCGnext_iter at h
  split at h
  · simp at h
  next p hp =>
  split at h
  · simp at h
  next xk hx =>
  split at h
  next log1 e hgl => simp at h
  next log1 g hgl =>
  split at h
  next e hls => simp at h
  next x1 log2 hls =>
  split at h
  next log3 e hng => simp at h
  next log3 ng hng =>
  split at h
  next hz => simp at h
  next hz =>
  dsimp only at h
  split at h
  next log4 e hcc => simp at h
  next log4 c hcc =>
  simp only [callGrad, Prod.mk.injEq] at hng
  simp only [callCost, Prod.mk.injEq] at hcc
  obtain ⟨hlog3, hng⟩ := hng
  obtain ⟨hlog4, hcc⟩ := hcc
  simp only [Prod.mk.injEq, Except.ok.injEq] at h
  obtain ⟨hs', hlog', hout⟩ := h
  subst hs'
  subst hlog'
  subst hout
  subst hlog3
  subst hlog4
  exact ⟨p, xk, log1, g, x1, log2, hp, hx, hgl, hls, hng, hz, hcc, rfl, rfl, rfl,
    by simp⟩

/-! Shared concrete step scenarios used by the witnesses. -/

/-- A solver state as left by `init` from `x₀ = [1]` on `probQ`: direction
`[-1]`, default restart configuration, beta rule `rule1`. -/
def sW : NonlinearConjugateGradient ℚ Unit :=
  { p := some [(-1 : ℚ)]
    beta := 0
    linesearch := lsUnit
    beta_method := rule1
    restart_iter := u64Max
    restart_orthogonality := none }

/-- The driver state feeding the first step: iterate `[1]`, cached gradient
`[1]`, cost `1/2`, iteration index 0. -/
def stW : IterState ℚ :=
  { param := some [(1 : ℚ)], grad := some [(1 : ℚ)], cost := 1 / 2, iter := 0 }

/-- The solver state after stepping `sW` at `stW`. -/
def c2s' : NonlinearConjugateGradient ℚ Unit :=
  { p := some [(-1 : ℚ)]
    beta := 1
    linesearch := lsUnit
    beta_method := rule1
    restart_iter := u64Max
    restart_orthogonality := none }

/-- The call log after stepping `sW` at `stW`. -/
def c2log : List (Call ℚ) := [Call.grad [(0 : ℚ)], Call.cost [(0 : ℚ)]]

/-- The step data returned by stepping `sW` at `stW`. -/
def c2out : IterData ℚ :=
  { param := [(0 : ℚ)], cost := 0, grad := [(0 : ℚ)]
    kv := { beta := 1, restart_iter := false, restart_orthogonality := false } }

/-- Claim C1: after `init(oracle, x₀)` returns successfully, the iterator has
evaluated the cost and the gradient exactly once each at `x₀` (the call log
grows by exactly one cost call and one gradient call, both at `x₀`), the
stored direction equals `−g₀`, and the returned data contains `x₀`, `f₀` and
`g₀`. -/
theorem claim1_init_contract (s : NonlinearConjugateGradient ℚ E)
    (prob : Problem ℚ E) (log : List (Call ℚ)) (st : IterState ℚ)
    (x0 : Vec ℚ) (f0 : ℚ) (g0 : Vec ℚ)
    (hx : st.param = some x0) (hc : prob.apply x0 = Except.ok f0)
    (hg : prob.gradient x0 = Except.ok g0) :
    NLCGinit qOps s prob log st =
      ({ s with p := some (negV qOps g0) }, log ++ [Call.cost x0, Call.grad x0],
        Except.ok { param := x0, cost := f0, grad := g0 }) := by
  simp [NLCGinit, callCost, callGrad, hx, hc, hg, mulVS_negOne]

/-- Witness for C1 at `x₀ = [1]` on `probQ`. -/
theorem claim1_witness :
    NLCGinit qOps (NLCGnew qOps lsUnit rule1) probQ []
        { param := some [(1 : ℚ)], grad := none, cost := 0, iter := 0 } =
      ({ NLCGnew qOps lsUnit rule1 with p := some (negV qOps [(1 : ℚ)]) },
        [Call.cost [(1 : ℚ)], Call.grad [(1 : ℚ)]],
        Except.ok { param := [(1 : ℚ)], cost := 1 / 2, grad := [(1 : ℚ)] }) :=
  claim1_init_contract (NLCGnew qOps lsUnit rule1) probQ []
    { param := some [(1 : ℚ)], grad := none, cost := 0, iter := 0 }
    [(1 : ℚ)] (1 / 2) [(1 : ℚ)] rfl (by with_unfolding_all rfl) rfl

/-- Claim C2: for every successful step, the direction stored at the end of
the step equals `−gₖ₊₁ + β·pₖ`, where `pₖ` is the direction at the start of
the step and `β` is the coefficient chosen in that step; in particular when a
restart fires the new direction equals `−gₖ₊₁` (stated for vectors of
matching dimension). -/
theorem claim2_direction_update (s : NonlinearConjugateGradient ℚ E)
    (prob : Problem ℚ E) (log : List (Call ℚ)) (st : IterState ℚ)
    (s' : NonlinearConjugateGradient ℚ E) (log' : List (Call ℚ)) (out : IterData ℚ)
    (p : Vec ℚ)
    (h : NLCGnext_iter qOps s prob log st = (s', log', Except.ok out))
    (hp : s.p = some p)
    (hlen : out.grad.length ≤ p.length) :
    s'.p = some (addV qOps (negV qOps out.grad) (mulVS qOps p out.kv.beta)) ∧
    ((out.kv.restart_iter || out.kv.restart_orthogonality) = true →
      s'.p = some (negV qOps out.grad)) := by
  obtain ⟨p', xk, log1, g, x1, log2, hp', hx, hgl, hls, hng, hz, hcc, hparam, hkv, hs', hlog'⟩ :=
    next_iter_ok_inv qOps s prob log st s' log' out h
  rw [hp] at hp'
  obtain rfl : p = p' := by injection hp'
  subst hs'
  constructor
  · rw [hkv]
    simp [mulVS_negOne]
  · intro hres
    rw [hkv] at hres
    simp only [Bool.or_eq_true] at hres
    have hbeta : betaSel qOps s st.iter g out.grad p = 0 := by
      unfold betaSel
      have : (iterFlag s st.iter || orthoFlag qOps s g out.grad) = true := by
        rcases hres with hres | hres <;> simp [hres]
      rw [this]
      simp [qOps]
    simp only [hbeta]
    rw [show mulVS qOps out.grad qOps.negOne = negV qOps out.grad from mulVS_negOne _]
    rw [addV_mulVS_zero (negV qOps out.grad) p (by simpa [negV] using hlen)]

/-- A solver state with `restart_iters(3)` configured. -/
def c3s : NonlinearConjugateGradient ℚ Unit :=
  { p := some [(-1 : ℚ)]
    beta := 0
    linesearch := lsUnit
    beta_method := rule1
    restart_iter := 3
    restart_orthogonality := none }

/-- A driver state at iteration index 3. -/
def c3st : IterState ℚ :=
  { param := some [(1 : ℚ)], grad := some [(1 : ℚ)], cost := 1 / 2, iter := 3 }

/-- The solver state after stepping `c3s` at `c3st`: the iteration restart
fires, `beta = 0`, direction `−g₁ = [0]`. -/
def c3s' : NonlinearConjugateGradient ℚ Unit :=
  { p := some [(0 : ℚ)]
    beta := 0
    linesearch := lsUnit
    beta_method := rule1
    restart_iter := 3
    restart_orthogonality := none }

/-- The call log after stepping `c3s` at `c3st`. -/
def c3log : List (Call ℚ) := [Call.grad [(0 : ℚ)], Call.cost [(0 : ℚ)]]

/-- The step data returned by stepping `c3s` at `c3st`. -/
def c3out : IterData ℚ :=
  { param := [(0 : ℚ)], cost := 0, grad := [(0 : ℚ)]
    kv := { beta := 0, restart_iter := true, restart_orthogonality := false } }

/-- A solver state with the Powell threshold ν = 1/10 configured and
direction `[-2]`. -/
def c4s : NonlinearConjugateGradient ℚ Unit :=
  { p := some [(-2 : ℚ)]
    beta := 0
    linesearch := lsUnit
    beta_method := rule1
    restart_iter := u64Max
    restart_orthogonality := some (1 / 10) }

/-- The solver state after stepping `c4s` at `stW`: the orthogonality restart
fires (ratio 1 ≥ 1/10), `beta = 0`, direction `−g₁ = [1]`. -/
def c4s' : NonlinearConjugateGradient ℚ Unit :=
  { p := some [(1 : ℚ)]
    beta := 0
    linesearch := lsUnit
    beta_method := rule1
    restart_iter := u64Max
    restart_orthogonality := some (1 / 10) }

/-- The call log after stepping `c4s` at `stW`. -/
def c4log : List (Call ℚ) := [Call.grad [(-1 : ℚ)], Call.cost [(-1 : ℚ)]]

/-- The step data returned by stepping `c4s` at `stW`. -/
def c4out : IterData ℚ :=
  { param := [(-1 : ℚ)], cost := 1 / 2, grad := [(-1 : ℚ)]
    kv := { beta := 0, restart_iter := false, restart_orthogonality := true } }

/-- Witness for C2: stepping `sW` at `stW` stores direction
`−g₁ + β·p₀ = [-1]` with `β = 1`, no restart firing. -/
theorem claim2_witness :
    (c2s'.p = some (addV qOps (negV qOps [(0 : ℚ)]) (mulVS qOps [(-1 : ℚ)] c2out.kv.beta))) ∧
    (((c2out.kv.restart_iter || c2out.kv.restart_orthogonality) = true) →
      c2s'.p = some (negV qOps [(0 : ℚ)])) :=
  claim2_direction_update sW probQ [] stW c2s' c2log c2out [(-1 : ℚ)]
    (by with_unfolding_all rfl) rfl (by decide)

/-- Claim C3: with `restart_iters(N)` configured for any `N ≥ 1`, a
successful step at iteration index `k` emits `restart_iter = true` exactly
when `k > 0` and `k % N = 0` (so never at `k = 0`, even when `N = 1`), and
when it does the stored `beta` is 0. -/
theorem claim3_iteration_restart (s : NonlinearConjugateGradient ℚ E)
    (prob : Problem ℚ E) (log : List (Call ℚ)) (st : IterState ℚ)
    (s' : NonlinearConjugateGradient ℚ E) (log' : List (Call ℚ)) (out : IterData ℚ)
    (h : NLCGnext_iter qOps s prob log st = (s', log', Except.ok out))
    (_hN : 1 ≤ s.restart_iter) :
    (out.kv.restart_iter = true ↔ 0 < st.iter ∧ st.iter % s.restart_iter = 0) ∧
    (out.kv.restart_iter = true → out.kv.beta = 0) := by
  obtain ⟨p, xk, log1, g, x1, log2, hp, hx, hgl, hls, hng, hz, hcc, hparam, hkv, hs', hlog'⟩ :=
    next_iter_ok_inv qOps s prob log st s' log' out h
  rw [hkv]
  constructor
  · simp only [iterFlag, Bool.and_eq_true, beq_iff_eq, bne_iff_ne, ne_eq]
    constructor
    · rintro ⟨h1, h2⟩
      exact ⟨Nat.pos_of_ne_zero h2, h1⟩
    · rintro ⟨h1, h2⟩
      exact ⟨h2, Nat.pos_iff_ne_zero.mp h1⟩
  · intro hri
    have hif : iterFlag s st.iter = true := hri
    show betaSel qOps s st.iter g out.grad p = 0
    simp [betaSel, hif, qOps]

/-- Witness for C3: stepping `c3s` (N = 3) at iteration index 3 fires the
iteration restart with `beta = 0`. -/
theorem claim3_witness :
    ((true = true) ↔ (0 < 3 ∧ 3 % 3 = 0)) ∧ ((true = true) → (0 : ℚ) = 0) :=
  claim3_iteration_restart c3s probQ [] c3st c3s' c3log c3out
    (by with_unfolding_all rfl) (by decide)

/-- Claim C4: in every successful step, when the orthogonality threshold ν is
not configured the emitted `restart_orthogonality` is false; when it is
configured the flag is true exactly when `|⟨gₖ₊₁, gₖ⟩| / ‖gₖ₊₁‖² ≥ ν`, and
when it fires the stored `beta` is 0; and whenever neither restart predicate
holds the stored `beta` equals the β-rule output `update(gₖ, gₖ₊₁, pₖ)`
exactly. -/
theorem claim4_orthogonality (s : NonlinearConjugateGradient ℚ E)
    (prob : Problem ℚ E) (log : List (Call ℚ)) (st : IterState ℚ)
    (s' : NonlinearConjugateGradient ℚ E) (log' : List (Call ℚ)) (out : IterData ℚ)
    (p g : Vec ℚ)
    (h : NLCGnext_iter qOps s prob log st = (s', log', Except.ok out))
    (hp : s.p = some p) (hg : st.grad = some g) :
    (s.restart_orthogonality = none → out.kv.restart_orthogonality = false) ∧
    (∀ v, s.restart_orthogonality = some v →
      (out.kv.restart_orthogonality = true ↔
        v ≤ |dotV qOps out.grad g| / normSq qOps out.grad)) ∧
    (out.kv.restart_orthogonality = true → out.kv.beta = 0) ∧
    (out.kv.restart_iter = false → out.kv.restart_orthogonality = false →
      out.kv.beta = s.beta_method g out.grad p) := by
  obtain ⟨p', xk, log1, g', x1, log2, hp', hx, hgl, hls, hng, hz, hcc, hparam, hkv, hs', hlog'⟩ :=
    next_iter_ok_inv qOps s prob log st s' log' out h
  rw [hp] at hp'
  obtain rfl : p = p' := by injection hp'
  rw [hg] at hgl
  simp only [gradLookup, Prod.mk.injEq, Except.ok.injEq] at hgl
  obtain ⟨hlog1, hgg⟩ := hgl
  subst hgg
  refine ⟨?_, ?_, ?_, ?_⟩
  · intro hnone
    rw [hkv]
    show orthoFlag qOps s g out.grad = false
    simp [orthoFlag, hnone]
  · intro v hv
    rw [hkv]
    show orthoFlag qOps s g out.grad = true ↔ _
    simp [orthoFlag, hv, qOps]
  · intro hro
    rw [hkv] at hro ⊢
    have hof : orthoFlag qOps s g out.grad = true := hro
    show betaSel qOps s st.iter g out.grad p = 0
    unfold betaSel
    rw [hof, Bool.or_true, if_pos rfl]
    rfl
  · intro hri hro
    rw [hkv] at hri hro ⊢
    have hif : iterFlag s st.iter = false := hri
    have hof : orthoFlag qOps s g out.grad = false := hro
    show betaSel qOps s st.iter g out.grad p = s.beta_method g out.grad p
    simp [betaSel, hif, hof]

/-- Witness for C4: stepping `c4s` (ν = 1/10) at `stW` gives
`|⟨g₁, g₀⟩| / ‖g₁‖² = 1 ≥ 1/10`, so the flag is true and the stored `beta`
is 0. -/
theorem claim4_witness :
    ((true = true) ↔
      (1 / 10 : ℚ) ≤ |dotV qOps [(-1 : ℚ)] [(1 : ℚ)]| / normSq qOps [(-1 : ℚ)]) ∧
    ((true = true) → (0 : ℚ) = 0) :=
  ⟨(claim4_orthogonality c4s probQ [] stW c4s' c4log c4out [(-2 : ℚ)] [(1 : ℚ)]
      (by with_unfolding_all rfl) rfl rfl).2.1 (1 / 10) rfl,
    (claim4_orthogonality c4s probQ [] stW c4s' c4log c4out [(-2 : ℚ)] [(1 : ℚ)]
      (by with_unfolding_all rfl) rfl rfl).2.2.1⟩

/-- A solver state with ν = 1/10 configured and direction `[-1]`, driving the
next iterate to the origin where the model gradient vanishes. -/
def c5s : NonlinearConjugateGradient ℚ Unit :=
  { p := some [(-1 : ℚ)]
    beta := 0
    linesearch := lsUnit
    beta_method := rule1
    restart_iter := u64Max
    restart_orthogonality := some (1 / 10) }

/-- The solver state after stepping `c5s` at `stW`: no restart fires, the
beta rule output 1 is stored, direction `[-1]`. -/
def c5s' : NonlinearConjugateGradient ℚ Unit :=
  { p := some [(-1 : ℚ)]
    beta := 1
    linesearch := lsUnit
    beta_method := rule1
    restart_iter := u64Max
    restart_orthogonality := some (1 / 10) }

/-- The call log after stepping `c5s` at `stW`. -/
def c5log : List (Call ℚ) := [Call.grad [(0 : ℚ)], Call.cost [(0 : ℚ)]]

/-- The step data returned by stepping `c5s` at `stW`. -/
def c5out : IterData ℚ :=
  { param := [(0 : ℚ)], cost := 0, grad := [(0 : ℚ)]
    kv := { beta := 1, restart_iter := false, restart_orthogonality := false } }

/-- Claim C5 (evaluation of the code at the failing input): in a step whose
new gradient `g₁ = [0]` has norm zero, with ν = 1/10 configured, the source
still evaluates the orthogonality test `|⟨g₁, g₀⟩| / ‖g₁‖² ≥ ν` — the divisor
`‖g₁‖²` is exactly 0, i.e. the division is performed with a zero divisor
(IEEE: 0/0 = NaN; exact model: 0/0 = 0) — and the step completes with the
emitted `restart_orthogonality` equal to false. -/
theorem claim5_zero_gradient_division :
    normSq qOps [(0 : ℚ)] = 0 ∧
    orthoFlag qOps c5s [(1 : ℚ)] [(0 : ℚ)] =
      qOps.le (1 / 10)
        (qOps.div (qOps.abs (dotV qOps [(0 : ℚ)] [(1 : ℚ)])) (normSq qOps [(0 : ℚ)])) ∧
    NLCGnext_iter qOps c5s probQ [] stW = (c5s', c5log, Except.ok c5out) ∧
    c5out.kv.restart_orthogonality = false :=
  ⟨by with_unfolding_all rfl, rfl, by with_unfolding_all rfl, rfl⟩

/-- The NLCG solver configured with `restart_iters(1)` and the constant beta
rule 1. -/
def c6s : NonlinearConjugateGradient ℚ Unit :=
  restart_iters (NLCGnew qOps lsUnit rule1) 1

/-- Counterexample to C6 as stated: with `restart_iters(1)` and the beta rule
constantly 1, on the model problem from `x₀ = [1]`, the NLCG iterates are
`[1], [0], [-1]` while pure steepest descent with the same line search gives
`[1], [0], [0]` — the `k ≠ 0` guard keeps the first step's beta equal to the
rule output, so the second search direction is `−g₁ + β₀·p₀ ≠ −g₁`. -/
theorem claim6_counterexample :
    runNLCG qOps c6s probQ [(1 : ℚ)] 2 = Except.ok [[(1 : ℚ)], [0], [-1]] ∧
    runSD qOps lsUnit probQ [(1 : ℚ)] 2 = Except.ok [[(1 : ℚ)], [0], [0]] ∧
    ([[(1 : ℚ)], [0], [-1]] : List (Vec ℚ)) ≠ [[(1 : ℚ)], [0], [0]] :=
  ⟨by with_unfolding_all rfl, by with_unfolding_all rfl, by decide⟩

/-- The driver loop of the solver whose direction invariant `p = −g` holds
produces, step for step, the same results as the steepest-descent loop with
the same line search, provided the beta rule always returns 0 and the
gradient oracle produces vectors of a fixed dimension. -/
theorem nlcgLoop_eq_sdLoop (ls : LineSearchFn ℚ E) (B : BetaRule ℚ)
    (prob : Problem ℚ E) (n : Nat) (N : Nat)
    (hB : ∀ a b c, B a b c = 0)
    (hg : ∀ x v, prob.gradient x = Except.ok v → v.length = n)
    (hN : N ≠ 0) :
    ∀ fuel k x g f log beta, g.length = n →
      nlcgLoop qOps
        { p := some (negV qOps g), beta := beta, linesearch := ls, beta_method := B,
          restart_iter := N, restart_orthogonality := none } prob log x g f k fuel
      = sdLoop qOps ls prob log x g f fuel := by
  intro fuel
  induction fuel with
  | zero =>
    intro k x g f log beta hlen
    rfl
  | succ fuel ih =>
    intro k x g f log beta hlen
    simp only [nlcgLoop, sdLoop, sdStep, NLCGnext_iter, gradLookup, callGrad, callCost]
    cases hls : ls (negV qOps g) prob log x g f with
    | error e => rfl
    | ok r =>
      obtain ⟨x1, log2⟩ := r
      dsimp only
      cases hng : prob.gradient x1 with
      | error e => rfl
      | ok g1 =>
        dsimp only
        rw [if_neg hN]
        have hbeta : betaSel qOps
            { p := some (negV qOps g), beta := beta, linesearch := ls, beta_method := B,
              restart_iter := N, restart_orthogonality := none } k g g1 (negV qOps g) = 0 := by
          unfold betaSel
          split
          · rfl
          · exact hB g g1 (negV qOps g)
        rw [hbeta]
        have hdir : addV qOps (mulVS qOps g1 qOps.negOne) (mulVS qOps (negV qOps g) (0 : ℚ))
            = negV qOps g1 := by
          rw [mulVS_negOne]
          exact addV_mulVS_zero (negV qOps g1) (negV qOps g)
            (by simp [negV, hg x1 g1 hng, hlen])
        rw [hdir]
        cases hcc : prob.apply x1 with
        | error e => rfl
        | ok c =>
          dsimp only
          rw [ih (k + 1) x1 g1 c (log2 ++ [Call.grad x1] ++ [Call.cost x1]) 0
            (hg x1 g1 hng)]

/-- Claim C6 (amended): with `restart_iters(1)` the iterate sequence equals
that of pure steepest descent with the same line search provided the β-rule
returns 0; for an arbitrary rule, the guard `k ≠ 0` lets the first step's β
come from the rule, so the sequences agree only through `x₁` in general (see
the counterexample). -/
theorem claim6_amended (ls : LineSearchFn ℚ E) (B : BetaRule ℚ)
    (prob : Problem ℚ E) (n : Nat) (x0 : Vec ℚ) (fuel : Nat)
    (hB : ∀ a b c, B a b c = 0)
    (hg : ∀ x v, prob.gradient x = Except.ok v → v.length = n) :
    runNLCG qOps (restart_iters (NLCGnew qOps ls B) 1) prob x0 fuel
      = runSD qOps ls prob x0 fuel := by
  simp only [runNLCG, runSD, NLCGinit, NLCGnew, restart_iters, callCost, callGrad]
  cases hcc : prob.apply x0 with
  | error e => rfl
  | ok f0 =>
    dsimp only
    cases hng : prob.gradient x0 with
    | error e => rfl
    | ok g0 =>
      dsimp only
      rw [mulVS_negOne]
      rw [nlcgLoop_eq_sdLoop ls B prob n 1 hB hg (by decide) fuel 0 x0 g0 f0
        _ (qOps.nan) (hg x0 g0 hng)]

/-- Witness for C6 (amended): with the zero beta rule, `restart_iters(1)`
NLCG and steepest descent produce identical runs on the model problem. -/
theorem claim6_witness :
    runNLCG qOps (restart_iters (NLCGnew qOps lsUnit (fun _ _ _ => (0 : ℚ))) 1)
        probQ [(1 : ℚ)] 2
      = runSD qOps lsUnit probQ [(1 : ℚ)] 2 :=
  claim6_amended lsUnit (fun _ _ _ => (0 : ℚ)) probQ 1 [(1 : ℚ)] 2
    (fun _ _ _ => rfl)
    (fun x v h => by
      simp only [probQ] at h
      cases h
      rfl)

/-- The step fails before the direction and coefficient update: the gradient
lookup at `xₖ` fails with `e`, or the line search fails with `e`, or the
gradient evaluation at `xₖ₊₁` fails with `e`. -/
def earlyFailure (s : NonlinearConjugateGradient F E) (prob : Problem F E)
    (log : List (Call F)) (st : IterState F) (e : E) : Prop :=
  ∃ p xk, s.p = some p ∧ st.param = some xk ∧
    ((∃ log1, gradLookup prob log st.grad xk = (log1, Except.error e)) ∨
      (∃ log1 g, gradLookup prob log st.grad xk = (log1, Except.ok g) ∧
        (s.linesearch p prob log1 xk g st.cost = Except.error e ∨
          (∃ x1 log2, s.linesearch p prob log1 xk g st.cost = Except.ok (x1, log2) ∧
            prob.gradient x1 = Except.error e))))

/-- Claim C7 (amended): every oracle or line-search failure is returned
unchanged (wrapped as the step's error outcome); when the failure occurs
before the direction update — the gradient lookup at `xₖ`, the line search,
or the gradient evaluation at `xₖ₊₁` — the stored direction `p` and
coefficient `beta` are unchanged.  (When the final cost evaluation at `xₖ₊₁`
fails, the error still propagates unchanged but `p` and `beta` have already
been updated; see the counterexample.) -/
theorem claim7_amended (ops : FOps F) (s : NonlinearConjugateGradient F E)
    (prob : Problem F E) (log : List (Call F)) (st : IterState F) (e : E)
    (h : earlyFailure s prob log st e) :
    (NLCGnext_iter ops s prob log st).1.p = s.p ∧
    (NLCGnext_iter ops s prob log st).1.beta = s.beta ∧
    (NLCGnext_iter ops s prob log st).2.2 = Except.error (Fail.er e) := by
  obtain ⟨p, xk, hp, hx, hcase⟩ := h
  have hstep : ∃ log', NLCGnext_iter ops s prob log st
      = (s, log', Except.error (Fail.er e)) := by
    rcases hcase with ⟨log1, hgl⟩ | ⟨log1, g, hgl, hrest⟩
    · refine ⟨log1, ?_⟩
      unfold NLCGnext_iter
      rw [hp, hx]
      dsimp only
      rw [hgl]
    · rcases hrest with hls | ⟨x1, log2, hls, hng⟩
      · refine ⟨log1, ?_⟩
        unfold NLCGnext_iter
        rw [hp, hx]
        dsimp only
        rw [hgl]
        dsimp only
        rw [hls]
      · refine ⟨log2 ++ [Call.grad x1], ?_⟩
        unfold NLCGnext_iter
        rw [hp, hx]
        dsimp only
        rw [hgl]
        dsimp only
        rw [hls]
        dsimp only
        simp only [callGrad]
        rw [hng]
  obtain ⟨log', hstep⟩ := hstep
  rw [hstep]
  exact ⟨rfl, rfl, rfl⟩

/-- The constant beta rule returning 2. -/
def rule2 : BetaRule ℚ := fun _ _ _ => 2

/-- A solver state whose step on `prob7` reaches the final cost evaluation at
the origin, where the cost oracle fails. -/
def c7s : NonlinearConjugateGradient ℚ Unit :=
  { p := some [(-2 : ℚ)]
    beta := 0
    linesearch := lsUnit
    beta_method := rule2
    restart_iter := u64Max
    restart_orthogonality := none }

/-- The driver state feeding the failing step: iterate `[2]`, cached gradient
`[2]`, cost 2, iteration index 0. -/
def c7st : IterState ℚ :=
  { param := some [(2 : ℚ)], grad := some [(2 : ℚ)], cost := 2, iter := 0 }

/-- Counterexample to C7 as stated: on `prob7` the cost oracle fails at the
new iterate `[0]`, after the direction and coefficient update; the step
returns the error unchanged, but the stored direction has changed from `[-2]`
to `[-4]` and the stored `beta` from 0 to 2. -/
theorem claim7_counterexample :
    (NLCGnext_iter qOps c7s prob7 [] c7st).2.2 = Except.error (Fail.er ()) ∧
    c7s.p = some [(-2 : ℚ)] ∧
    (NLCGnext_iter qOps c7s prob7 [] c7st).1.p = some [(-4 : ℚ)] ∧
    (some [(-4 : ℚ)] ≠ some [(-2 : ℚ)]) ∧
    c7s.beta = (0 : ℚ) ∧
    (NLCGnext_iter qOps c7s prob7 [] c7st).1.beta = (2 : ℚ) ∧
    ((2 : ℚ) ≠ 0) :=
  ⟨by with_unfolding_all rfl, rfl, by with_unfolding_all rfl, by decide,
    rfl, by with_unfolding_all rfl, by decide⟩

/-- A solver state whose line search always fails. -/
def c7ws : NonlinearConjugateGradient ℚ Unit :=
  { p := some [(-1 : ℚ)]
    beta := 0
    linesearch := lsFail
    beta_method := rule1
    restart_iter := u64Max
    restart_orthogonality := none }

/-- Witness for C7 (amended): a line-search failure propagates unchanged and
leaves `p` and `beta` untouched. -/
theorem claim7_witness :
    (NLCGnext_iter qOps c7ws probQ [] stW).1.p = c7ws.p ∧
    (NLCGnext_iter qOps c7ws probQ [] stW).1.beta = c7ws.beta ∧
    (NLCGnext_iter qOps c7ws probQ [] stW).2.2 = Except.error (Fail.er ()) :=
  claim7_amended qOps c7ws probQ [] stW ()
    ⟨[(-1 : ℚ)], [(1 : ℚ)], rfl, rfl,
      Or.inr ⟨[], [(1 : ℚ)], rfl, Or.inl rfl⟩⟩

/-- Claim C8 (amended): calling `next_iter` before `init` (that is, with the
direction `p` still unset) deterministically panics — the `unwrap` of `None`
— leaving the state and log unchanged; it does not return an error value. -/
theorem claim8_amended (ops : FOps F) (s : NonlinearConjugateGradient F E)
    (prob : Problem F E) (log : List (Call F)) (st : IterState F)
    (hp : s.p = none) :
    NLCGnext_iter ops s prob log st = (s, log, Except.error Fail.rustPanic) := by
  unfold NLCGnext_iter
  rw [hp]

/-- Counterexample to C8 as stated: stepping a freshly constructed solver
(no `init`) panics; the outcome is the panic, not a returned error value. -/
theorem claim8_counterexample :
    (NLCGnext_iter qOps (NLCGnew qOps lsUnit rule1) probQ [] stW).2.2
        = Except.error Fail.rustPanic ∧
    (Except.error Fail.rustPanic
        ≠ (Except.error (Fail.er ()) : Except (Fail Unit) (IterData ℚ))) :=
  ⟨rfl, by decide⟩

/-- Witness for C8 (amended): the freshly constructed solver has `p = none`
and its step panics. -/
theorem claim8_witness :
    NLCGnext_iter qOps (NLCGnew qOps lsUnit rule1) probQ [] stW
      = (NLCGnew qOps lsUnit rule1, [], Except.error Fail.rustPanic) :=
  claim8_amended qOps (NLCGnew qOps lsUnit rule1) probQ [] stW rfl

/-- An NLCG solver state over the IEEE-style scalars whose beta rule returns
NaN. -/
def c9s : NonlinearConjugateGradient FV Unit :=
  { p := some [FV.fin (-1)]
    beta := FV.fin 0
    linesearch := lsFVunit
    beta_method := ruleNaN
    restart_iter := u64Max
    restart_orthogonality := none }

/-- The driver state feeding the FV step. -/
def c9st : IterState FV :=
  { param := some [FV.fin 1], grad := some [FV.fin 1], cost := FV.fin 0, iter := 0 }

/-- The step data returned by stepping `c9s` at `c9st`: the stored beta is
NaN. -/
def c9out : IterData FV :=
  { param := [FV.fin 0], cost := FV.fin 0, grad := [FV.fin 0]
    kv := { beta := FV.nan, restart_iter := false, restart_orthogonality := false } }

/-- Counterexample to C9 as stated: with the NaN-returning beta rule (which
the driver does not exclude) the step completes successfully and the stored
`beta` is NaN — not finite. -/
theorem claim9_counterexample :
    (NLCGnext_iter fvOps c9s probFV [] c9st).2.2 = Except.ok c9out ∧
    (NLCGnext_iter fvOps c9s probFV [] c9st).1.beta = FV.nan ∧
    FV.isFinite FV.nan = false :=
  ⟨by with_unfolding_all rfl, by with_unfolding_all rfl, rfl⟩

/-- Claim C9 (amended): after every completed step the stored `beta` is
either 0 or exactly the beta rule's output; hence it is finite whenever the
configured rule returns only finite values — but the driver imposes no
constraint on the rule, and a NaN-returning rule makes `beta` NaN (see the
counterexample). -/
theorem claim9_amended (s : NonlinearConjugateGradient FV E) (prob : Problem FV E)
    (log : List (Call FV)) (st : IterState FV)
    (s' : NonlinearConjugateGradient FV E) (log' : List (Call FV)) (out : IterData FV)
    (hfin : ∀ a b c, FV.isFinite (s.beta_method a b c) = true)
    (h : NLCGnext_iter fvOps s prob log st = (s', log', Except.ok out)) :
    FV.isFinite s'.beta = true := by
  obtain ⟨p, xk, log1, g, x1, log2, hp, hx, hgl, hls, hng, hz, hcc, hparam, hkv, hs', hlog'⟩ :=
    next_iter_ok_inv fvOps s prob log st s' log' out h
  subst hs'
  show FV.isFinite (betaSel fvOps s st.iter g out.grad p) = true
  unfold betaSel
  split
  · rfl
  · exact hfin g out.grad p

/-- The constant finite beta rule over the IEEE-style scalars. -/
def ruleFV0 : BetaRule FV := fun _ _ _ => FV.fin 0

/-- The `c9s` scenario with the finite rule instead of the NaN rule. -/
def c9ws : NonlinearConjugateGradient FV Unit :=
  { p := some [FV.fin (-1)]
    beta := FV.fin 0
    linesearch := lsFVunit
    beta_method := ruleFV0
    restart_iter := u64Max
    restart_orthogonality := none }

/-- The solver state after stepping `c9ws` at `c9st`. -/
def c9ws' : NonlinearConjugateGradient FV Unit :=
  { p := some [FV.fin 0]
    beta := FV.fin 0
    linesearch := lsFVunit
    beta_method := ruleFV0
    restart_iter := u64Max
    restart_orthogonality := none }

/-- The call log after stepping `c9ws` at `c9st`. -/
def c9wlog : List (Call FV) := [Call.grad [FV.fin 0], Call.cost [FV.fin 0]]

/-- The step data returned by stepping `c9ws` at `c9st`. -/
def c9wout : IterData FV :=
  { param := [FV.fin 0], cost := FV.fin 0, grad := [FV.fin 0]
    kv := { beta := FV.fin 0, restart_iter := false, restart_orthogonality := false } }

/-- Witness for C9 (amended): with a rule returning only finite values, the
stored `beta` after a completed step is finite. -/
theorem claim9_witness : FV.isFinite c9ws'.beta = true :=
  claim9_amended c9ws probFV [] c9st c9ws' c9wlog c9wout (fun _ _ _ => rfl)
    (by with_unfolding_all rfl)

/-- Claim C10 (amended): `restart_iters` accepts 0 without validation, and a
step under that configuration that reaches the iteration-restart test — the
direction is set, the parameter is present, the gradient is cached, and the
line search and the gradient evaluation at the new iterate succeed — panics
on the remainder by zero rather than completing or returning an error.  (A
step whose oracle or line search fails earlier returns that error instead;
see the counterexample.) -/
theorem claim10_mod_zero_panic (ops : FOps F) (s0 : NonlinearConjugateGradient F E)
    (prob : Problem F E) (log : List (Call F)) (st : IterState F)
    (p xk g x1 : Vec F) (log2 : List (Call F)) (g1 : Vec F)
    (hp : s0.p = some p) (hx : st.param = some xk) (hg : st.grad = some g)
    (hls : s0.linesearch p prob log xk g st.cost = Except.ok (x1, log2))
    (hg1 : prob.gradient x1 = Except.ok g1) :
    (restart_iters s0 0).restart_iter = 0 ∧
    (NLCGnext_iter ops (restart_iters s0 0) prob log st).2.2
      = Except.error Fail.rustPanic := by
  refine ⟨rfl, ?_⟩
  unfold NLCGnext_iter
  dsimp only [restart_iters]
  rw [hp, hx]
  dsimp only
  rw [hg]
  dsimp only [gradLookup]
  rw [hls]
  dsimp only
  simp only [callGrad]
  rw [hg1]
  simp

/-- A solver state with `restart_iter = 0` and a failing line search. -/
def c10s : NonlinearConjugateGradient ℚ Unit :=
  { p := some [(-1 : ℚ)]
    beta := 0
    linesearch := lsFail
    beta_method := rule1
    restart_iter := 0
    restart_orthogonality := none }

/-- Counterexample to C10 as stated: with `restart_iter = 0`, a step whose
line search fails returns that error — it does not panic — so not every step
under this configuration fails by panic. -/
theorem claim10_counterexample :
    c10s.restart_iter = 0 ∧
    (NLCGnext_iter qOps c10s probQ [] stW).2.2 = Except.error (Fail.er ()) ∧
    (Except.error (Fail.er ())
        ≠ (Except.error Fail.rustPanic : Except (Fail Unit) (IterData ℚ))) :=
  ⟨rfl, rfl, by decide⟩

/-- Witness for C10 (amended): configuring `restart_iters 0` on `sW` and
stepping with a successful line search and gradient evaluation panics on the
remainder by zero. -/
theorem claim10_witness :
    (restart_iters sW 0).restart_iter = 0 ∧
    (NLCGnext_iter qOps (restart_iters sW 0) probQ [] stW).2.2
      = Except.error Fail.rustPanic :=
  claim10_mod_zero_panic qOps sW probQ [] stW [(-1 : ℚ)] [(1 : ℚ)] [(1 : ℚ)]
    [(0 : ℚ)] [] [(0 : ℚ)] rfl rfl rfl (by with_unfolding_all rfl)
    (by with_unfolding_all rfl)
